import Mathlib

/-!
Verification of the cfg-maker analysis core against its specification.

The Python sources embedded here are:
* `cfggenerator.py` — `annotate_execution_order` (BFS label annotation),
  `calculate_cyclomatic_complexity` (radon-based complexity report) and
  `generate_cfg_image` (py2cfg pipeline step);
* `cfg_generator.py` — `_generate_and_visualize_cfg` and the web orchestrator
  `generate_cfg_web` (staticfg pipeline, used by `app.py`);
* `CloudCFGMAKER.py` — an earlier revision of `generate_cfg_web`.

External collaborators (radon, py2cfg, staticfg, graphviz, the filesystem) are
modelled as explicit parameters: each call that can raise in Python is passed
in as an `Except PyErr` value, and the embedded control flow mirrors the
`try/except` structure of the source line by line.
-/

/-- Python exception values, by class, as they flow through the pipeline.
`synError` carries the optional `lineno` attribute of a `SyntaxError`. -/
inductive PyErr where
  | synError (lineno : Option Nat) (msg : String)
  | fileNotFound (msg : String)
  | importError (msg : String)
  | runtimeError (msg : String)
  | valueError (msg : String)
  | otherError (msg : String)
deriving DecidableEq, Repr

/-- Models Python `str(e)` on an exception: the message text. -/
def pyErrStr : PyErr → String
  | .synError _ m => m
  | .fileNotFound m => m
  | .importError m => m
  | .runtimeError m => m
  | .valueError m => m
  | .otherError m => m

/-- `true` iff the modelled Python call raised (result is an `Except.error`). -/
def isRaised {α : Type} : Except PyErr α → Bool
  | .error _ => true
  | .ok _ => false

/-- Python `s.endswith(suf)`, over the character data. -/
def strEndsWith (s suf : String) : Bool := suf.data.isSuffixOf s.data

/-- Python `not s.strip()`: `true` iff `s` is empty or whitespace-only. -/
def isBlankStr (s : String) : Bool := s.data.all Char.isWhitespace

/-! ## Rank lookup (`calculate_cyclomatic_complexity`, the per-block loop)

The Python code fetches `score_data = getattr(radon.complexity, 'SCORE', None)`
and scans it: entries that are not a list/tuple of length ≥ 2 are skipped with
a warning; entries whose first component is not an `int`/`float` are skipped;
otherwise the first entry with `block.complexity <= score_limit` wins, and the
rank defaults to `'A'` when nothing matches or the table is unusable. -/

/-- A numeric score limit as the Python code sees it: an `int`/`float` value,
where `float('inf')` is the one non-integral value the table needs. -/
inductive SLimit where
  | num (v : Int)
  | inf
deriving DecidableEq, Repr

/-- `block.complexity <= score_limit` for a numeric limit. -/
def slimitLe (c : Int) : SLimit → Bool
  | .num v => decide (c ≤ v)
  | .inf => true

/-- One element of the fetched score table, as classified by the Python code:
`malformed` models an item that is not a list/tuple of length ≥ 2;
`entry limit rank` models `(score_entry[0], score_entry[1])`, with
`limit = none` when `score_entry[0]` is not an `int`/`float`. -/
inductive ScoreEntry where
  | malformed
  | entry (limit : Option SLimit) (rank : String)
deriving DecidableEq, Repr

/-- An entry actually usable by the scan: a well-formed pair with a numeric
limit. -/
def ScoreEntry.usable : ScoreEntry → Bool
  | .entry (some _) _ => true
  | _ => false

/-- The fetched `radon.complexity.SCORE` value as classified by the Python
code: `notList` models `None` (attribute absent) or any non-list/tuple value;
`table` models a list/tuple of items. -/
inductive ScoreData where
  | notList
  | table (entries : List ScoreEntry)
deriving DecidableEq, Repr

/-- The scan over the entries of a score table: first usable entry whose limit
admits `c` wins; the rank defaults to `"A"`. Mirrors the
`for score_entry in score_data` loop of `calculate_cyclomatic_complexity`. -/
def rankScan (c : Int) : List ScoreEntry → String
  | [] => "A"
  | .malformed :: rest => rankScan c rest
  | .entry none _ :: rest => rankScan c rest
  | .entry (some l) r :: rest => if slimitLe c l then r else rankScan c rest

/-- Rank of a complexity score given the fetched score data. The `notList`
branch mirrors the `isinstance(score_data, (list, tuple))` check: the rank
stays at its default `"A"`. -/
def rankOf (c : Int) : ScoreData → String
  | .notList => "A"
  | .table es => rankScan c es

/-- Modelled from the spec: the rank table itself lives in the external radon
library (`radon.complexity.SCORE`), not under `src/`; this constant is the
fixed table of inclusive upper bounds given in spec §4.3
(5→A, 10→B, 20→C, 30→D, 40→E, ∞→F). -/
def specScoreTable : List ScoreEntry :=
  [ .entry (some (.num 5)) "A"
  , .entry (some (.num 10)) "B"
  , .entry (some (.num 20)) "C"
  , .entry (some (.num 30)) "D"
  , .entry (some (.num 40)) "E"
  , .entry (some .inf) "F" ]

/-! ## `calculate_cyclomatic_complexity` (cfggenerator.py) -/

/-- One block reported by radon's `cc_visit`: the attributes the Python code
reads (`classname`, `name`, `lineno`, `endline`, `complexity`). -/
structure CCBlock where
  classname : Option String
  name : String
  lineno : Nat
  endline : Nat
  complexity : Int
deriving DecidableEq, Repr

namespace cfggenerator

/-- The result line for one block:
`f"- {block.classname or ''}{block.name} ({block.lineno}-{block.endline}): Complexity {block.complexity} ({rank})"`. -/
def describeBlock (sd : ScoreData) (b : CCBlock) : String :=
  let cn := match b.classname with
    | some c => c
    | none => ""
  "- " ++ cn ++ b.name ++ " (" ++ toString b.lineno ++ "-" ++ toString b.endline
    ++ "): Complexity " ++ toString b.complexity ++ " ("
    ++ rankOf b.complexity sd ++ ")"

/-- The per-block loop: result lines in block order and the accumulated
`total_complexity`. -/
def calcBlocks (sd : ScoreData) (blocks : List CCBlock) : List String × Int :=
  (blocks.map (describeBlock sd), blocks.foldl (fun t b => t + b.complexity) 0)

/-- Shallow embedding of `calculate_cyclomatic_complexity`.
`readRes` models `open(filepath).read()` (any exception it raises lands in the
outer handlers); `ccVisit` models radon's `cc_visit`, whose exceptions are all
caught by the inner handler and turned into a degenerate result; `sd` models
the fetched `radon.complexity.SCORE`. Every branch returns normally
(`Except.ok`), mirroring the function's catch-all `try/except` structure. -/
def calculate_cyclomatic_complexity
    (readRes : Except PyErr String)
    (ccVisit : String → Except PyErr (List CCBlock))
    (sd : ScoreData) : Except PyErr (List String × Int) :=
  match readRes with
  | .error (.importError _) =>
      .ok (["Error: Radon library issue during complexity analysis."], 0)
  | .error (.synError ln m) =>
      .ok (["Syntax Error in code: " ++ pyErrStr (.synError ln m)], 0)
  | .error e =>
      .ok (["Error during complexity analysis: " ++ pyErrStr e], 0)
  | .ok code =>
      if isBlankStr code then .ok (["Source file is empty."], 0)
      else
        match ccVisit code with
        | .error ve =>
            .ok (["Error parsing code for complexity: " ++ pyErrStr ve], 0)
        | .ok [] =>
            .ok (["No functions or methods found for complexity analysis."], 0)
        | .ok (b :: bs) => .ok (calcBlocks sd (b :: bs))

end cfggenerator

/-! ## `generate_cfg_image` (cfggenerator.py, py2cfg pipeline)

The py2cfg `CFGBuilder().build_from_file` call, the re-read of the input file
and the `cfg.build_visual` call are the three fallible external steps; each is
passed in as a parameter. The embedded control flow mirrors the nested
`try/except` blocks of the source. -/

/-- The object returned by `CFGBuilder().build_from_file`, as tested by
`if not cfg or not hasattr(cfg, 'entry') or cfg.entry is None:`.
`truthy` models `bool(cfg)`; `hasEntry` models
`hasattr(cfg, 'entry') and cfg.entry is not None`. -/
structure Py2CfgObj where
  truthy : Bool
  hasEntry : Bool
deriving DecidableEq, Repr

namespace cfggenerator

/-- The branch taken for the `build_visual` step (the annotation step before it
never fails — `annotate_execution_order` is total — so it does not appear in
the result). Graphviz-execution failures get the dedicated server-config
message. -/
def visualStep (visualRes : Except PyErr Unit) (outPath : String) :
    Except PyErr String :=
  match visualRes with
  | .ok _ => .ok outPath
  | .error e =>
      let s := (pyErrStr e).toLower
      if (s.splitOn "failed to execute").length ≠ 1
          ∨ (s.splitOn "command not found").length ≠ 1 then
        .error (.runtimeError
          "Server configuration error: Graphviz executable not found or failed.")
      else
        .error (.runtimeError ("Failed to visualize CFG: " ++ pyErrStr e))

/-- Shallow embedding of `generate_cfg_image`.
`buildRes` models `CFGBuilder().build_from_file('cfg_analysis', input_filepath)`;
`reread` models the `open(input_filepath).read().strip()` check performed when
the built CFG is missing its entry (`.ok b` with `b = true` iff the content is
empty after stripping); `visualRes` models `cfg.build_visual`. -/
def generate_cfg_image
    (buildRes : Except PyErr Py2CfgObj)
    (reread : Except PyErr Bool)
    (visualRes : Except PyErr Unit)
    (outPath : String) : Except PyErr String :=
  match buildRes with
  | .error (.synError ln m) =>
      -- inner `except SyntaxError: raise`, outer `except SyntaxError as e:`
      -- `raise SyntaxError(f"Syntax error in uploaded file: {e}")`
      .error (.synError ln
        ("Syntax error in uploaded file: " ++ pyErrStr (.synError ln m)))
  | .error e =>
      -- inner `except Exception`: `raise RuntimeError(f"Failed during CFG
      -- building step: {e}")`; the outer `except RuntimeError` re-raises it
      .error (.runtimeError ("Failed during CFG building step: " ++ pyErrStr e))
  | .ok cfg =>
      if !cfg.truthy || !cfg.hasEntry then
        match reread with
        | .error (.fileNotFound _) =>
            -- outer `except FileNotFoundError`
            .error (.runtimeError
              "Internal Server Error: Could not find temporary file.")
        | .error e =>
            -- outer `except Exception`
            .error (.runtimeError
              ("Unexpected error generating CFG image: " ++ pyErrStr e))
        | .ok true =>
            -- `raise RuntimeError("Input file is empty.")`, re-raised by the
            -- outer `except RuntimeError`
            .error (.runtimeError "Input file is empty.")
        | .ok false => visualStep visualRes outPath
      else visualStep visualRes outPath

end cfggenerator

/-! ## `_generate_and_visualize_cfg` and `generate_cfg_web` (cfg_generator.py)

This is the orchestrator `app.py` imports. The result of `generate_cfg_web` is
paired with a `Bool` recording whether the temporary output directory it
creates (`tempfile.mkdtemp()`) still exists when the call returns: `false`
means either no directory was ever created or it was removed by the cleanup
handler. -/

/-- Outcomes of the external steps inside `_generate_and_visualize_cfg`:
the basic graphviz self-test render and its output check, the staticfg build
(`.ok b` with `b = bool(cfg)`), the staticfg render, and the final
existence/size check of the output image. -/
structure GenEnv where
  basicRender : Except PyErr Unit
  basicOutOk : Bool
  buildRes : Except PyErr Bool
  renderRes : Except PyErr Unit
  outOk : Bool
deriving Repr

namespace cfg_generator

/-- Shallow embedding of `_generate_and_visualize_cfg`. Each `raise` in the
source becomes an `Except.error`; note that the `raise RuntimeError` for a
failed basic-test output check sits inside its own `try` block and is
re-wrapped by the `except Exception` handler. -/
def _generate_and_visualize_cfg (env : GenEnv) : Except PyErr Unit :=
  match env.basicRender with
  | .error (.fileNotFound m) =>
      .error (.runtimeError
        ("Basic graphviz test failed ('dot' command error). Stderr: " ++ m))
  | .error e =>
      .error (.runtimeError ("Basic graphviz test failed: " ++ pyErrStr e))
  | .ok _ =>
      if !env.basicOutOk then
        .error (.runtimeError ("Basic graphviz test failed: "
          ++ "Basic graphviz test failed - 'dot' installation or dependencies might be broken."))
      else
        match env.buildRes with
        | .error (.synError ln m) =>
            let details := pyErrStr (.synError ln m) ++
              (match ln with
               | some k => " (line " ++ toString k ++ ")"
               | none => "")
            .error (.runtimeError ("Input file contains syntax errors: " ++ details))
        | .error e =>
            .error (.runtimeError
              ("Failed to build CFG object using staticfg: " ++ pyErrStr e))
        | .ok false =>
            .error (.runtimeError "Failed to build CFG object with staticfg.")
        | .ok true =>
            match env.renderRes with
            | .error (.fileNotFound m) =>
                .error (.runtimeError
                  ("Graphviz 'dot' command failed during staticfg render. Stderr: " ++ m))
            | .error e =>
                .error (.runtimeError
                  ("Error occurred during CFG visualization via staticfg: " ++ pyErrStr e))
            | .ok _ =>
                if !env.outOk then
                  .error (.runtimeError ("CFG visualization failed: Output invalid ('dot' failed silently or CFG was empty?)."
                    ++ " (Note: Basic graphviz test passed, issue likely with staticfg data/interaction)."))
                else .ok ()

/-- Shallow embedding of `generate_cfg_web` (cfg_generator.py).
`inputExists` models `os.path.exists(input_file_path)`. The first component is
the returned path or the re-raised exception; the second component is `true`
iff the temporary output directory still exists when the call returns (the
`except` handler runs `shutil.rmtree(output_dir)` before `raise e`). -/
def generate_cfg_web (input_file_path : String) (inputExists : Bool)
    (env : GenEnv) (output_filename : String) : Except PyErr String × Bool :=
  if !inputExists then
    (.error (.fileNotFound ("Input file not found at: " ++ input_file_path)), false)
  else if !(strEndsWith input_file_path ".py") then
    (.error (.valueError "Input must be a Python file (.py)."), false)
  else
    match _generate_and_visualize_cfg env with
    | .ok _ => (.ok ("<output_dir>/" ++ output_filename), true)
    | .error e => (.error e, false)

end cfg_generator

/-! ## `generate_cfg_web` (CloudCFGMAKER.py revision)

The earlier revision: only the extension is validated, the temporary output
directory is created unconditionally afterwards, and the `except Exception`
handler wraps every failure in a `RuntimeError` without any cleanup — so the
second (directory-persists) component stays `true` on every post-`mkdtemp`
path. -/

namespace CloudCFGMAKER

/-- Shallow embedding of `generate_cfg_web` (CloudCFGMAKER.py).
`buildRes` models `CFGBuilder().build_from_file('cfg', input_file)` with
`.ok b`, `b = bool(cfg)`; `visualRes` models `cfg.build_visual`. -/
def generate_cfg_web (input_file : String)
    (buildRes : Except PyErr Bool) (visualRes : Except PyErr Unit)
    (output_file : String) : Except PyErr String × Bool :=
  if !(strEndsWith input_file ".py") then
    (.error (.valueError "Input must be a Python file (.py)."), false)
  else
    -- `output_dir = tempfile.mkdtemp()` happens here
    match buildRes with
    | .error e =>
        (.error (.runtimeError ("Failed to generate CFG: " ++ pyErrStr e)), true)
    | .ok false =>
        (.error (.runtimeError ("Failed to generate CFG: "
          ++ "Generated CFG is empty. The input file may contain no executable code.")), true)
    | .ok true =>
        match visualRes with
        | .error e =>
            (.error (.runtimeError ("Failed to generate CFG: " ++ pyErrStr e)), true)
        | .ok _ => (.ok ("<output_dir>/" ++ output_file), true)

end CloudCFGMAKER

/-! ## `annotate_execution_order` (cfggenerator.py)

The graph is modelled with nodes identified by `Fin n` (Python node objects
are compared by identity; every successor reference denotes an actual node
object, so `Fin n` is the faithful counterpart of an object reference).
Per node:
* `labelOf v = some s` models a node whose `label` attribute is the string
  `s`; `none` models a non-string (or missing) label, which the code leaves
  untouched;
* `settable v = false` models a node for which assigning `label` raises
  `AttributeError` (logged and skipped by the code);
* `succs v = none` models a `successors` attribute that is not a
  list/tuple/set (logged, nothing enqueued); `some l` is the collection, in
  which a `none` element models a `None` entry (skipped by the
  `succ is not None` test).

The Python function mutates labels in place and returns `None`; the embedding
returns the final label map together with the list of processed nodes in
dequeue order (node `t.get ⟨i, _⟩` received order number `i + 1`). -/

/-- The control-flow graph object passed to `annotate_execution_order`. -/
structure CFG (n : Nat) where
  entry : Option (Fin n)
  succs : Fin n → Option (List (Option (Fin n)))
  labelOf : Fin n → Option String
  settable : Fin n → Bool

/-- `w` appears (as a non-`None` entry) in the successors collection of `v`. -/
def CFG.validSucc {n : Nat} (g : CFG n) (v w : Fin n) : Prop :=
  ∃ l, g.succs v = some l ∧ some w ∈ l

/-- Reachability along successor entries, as the traversal can see it. -/
inductive CFG.Reaches {n : Nat} (g : CFG n) (e : Fin n) : Fin n → Prop where
  | refl : CFG.Reaches g e e
  | tail {v w : Fin n} : CFG.Reaches g e v → g.validSucc v w → CFG.Reaches g e w

/-- The label produced for a processed node given its order number `o` and its
current label: a string label of a settable node becomes `"{o}. {label}"`,
anything else is left unchanged. -/
def applyOrder {n : Nat} (g : CFG n) (o : Nat) (v : Fin n) :
    Option String → Option String
  | some s => if g.settable v then some (toString o ++ ". " ++ s) else some s
  | none => none

namespace cfggenerator

/-- The label-update step performed when node `v` is dequeued: mirrors the
`isinstance(current_label, str)` test, the f-string rewrite, and the
`except AttributeError` skip. -/
def stepLab {n : Nat} (g : CFG n) (order : Nat) (v : Fin n)
    (lab : Fin n → Option String) : Fin n → Option String :=
  match lab v with
  | some s =>
      if g.settable v then
        Function.update lab v (some (toString order ++ ". " ++ s))
      else lab
  | none => lab

/-- The nodes enqueued when `v` is dequeued: the non-`None` entries of its
successors collection that are not yet visited (the visited set already
contains `v` at this point), in collection order; nothing when the successors
attribute is not an iterable collection. -/
def stepEnq {n : Nat} (g : CFG n) (v : Fin n) (visited : Finset (Fin n)) :
    List (Fin n) :=
  match g.succs v with
  | some l =>
      l.filterMap (fun o =>
        match o with
        | some u => if u ∈ insert v visited then none else some u
        | none => none)
  | none => []

/-- The `while queue:` loop of `annotate_execution_order`: FIFO queue
(`queue.pop(0)` / `queue.append`), visited set checked at dequeue time,
`order` incremented once per processed node. Returns the final label map and
the processed nodes in dequeue order. -/
def bfsLoop {n : Nat} (g : CFG n) (queue : List (Fin n))
    (visited : Finset (Fin n)) (order : Nat) (lab : Fin n → Option String) :
    (Fin n → Option String) × List (Fin n) :=
  match queue with
  | [] => (lab, [])
  | v :: rest =>
      if h : v ∈ visited then
        bfsLoop g rest visited order lab
      else
        let r := bfsLoop g (rest ++ stepEnq g v visited) (insert v visited)
          (order + 1) (stepLab g order v lab)
        (r.1, v :: r.2)
termination_by (n - visited.card, queue.length)
decreasing_by
  · exact Prod.Lex.right _ (Nat.lt_succ_self _)
  · apply Prod.Lex.left
    have h1 : (insert v visited).card = visited.card + 1 :=
      Finset.card_insert_of_not_mem h
    have h2 : (insert v visited).card ≤ n := by
      simpa using Finset.card_le_univ (insert v visited)
    omega

/-- Shallow embedding of `annotate_execution_order`: no-op when the `entry`
attribute is missing or `None`, otherwise the BFS loop started with
`queue = [cfg.entry]`, `visited = set()`, `order = 1`. -/
def annotate_execution_order {n : Nat} (g : CFG n) :
    (Fin n → Option String) × List (Fin n) :=
  match g.entry with
  | none => (g.labelOf, [])
  | some e => bfsLoop g [e] ∅ 1 g.labelOf

end cfggenerator

/-! ## Concrete instances used by witnesses -/

/-- A small concrete graph: entry `0`, a diamond `0 → 1, 2`, back-edge
`2 → 0`. -/
def exG : CFG 3 where
  entry := some 0
  succs := fun v =>
    if v = 0 then some [some 1, some 2]
    else if v = 1 then some []
    else some [some 0]
  labelOf := fun v =>
    if v = 0 then some "entry" else if v = 1 then some "left" else some "right"
  settable := fun _ => true

/-- A graph whose `entry` attribute is `None`. -/
def exGnone : CFG 1 where
  entry := none
  succs := fun _ => some []
  labelOf := fun _ => some "dead"
  settable := fun _ => true

/-! ## Lemmas about the BFS loop -/

namespace cfggenerator

theorem bfsLoop_nil {n : Nat} (g : CFG n) (vis : Finset (Fin n)) (ord : Nat)
    (lab : Fin n → Option String) :
    bfsLoop g [] vis ord lab = (lab, []) := by
  rw [bfsLoop]

theorem bfsLoop_cons_mem {n : Nat} (g : CFG n) {v : Fin n} (rest : List (Fin n))
    {vis : Finset (Fin n)} (ord : Nat) (lab : Fin n → Option String) (h : v ∈ vis) :
    bfsLoop g (v :: rest) vis ord lab = bfsLoop g rest vis ord lab := by
  rw [bfsLoop]
  simp [h]

theorem bfsLoop_cons_not_mem {n : Nat} (g : CFG n) {v : Fin n} (rest : List (Fin n))
    {vis : Finset (Fin n)} (ord : Nat) (lab : Fin n → Option String) (h : v ∉ vis) :
    bfsLoop g (v :: rest) vis ord lab =
      ((bfsLoop g (rest ++ stepEnq g v vis) (insert v vis) (ord + 1) (stepLab g ord v lab)).1,
        v :: (bfsLoop g (rest ++ stepEnq g v vis) (insert v vis) (ord + 1) (stepLab g ord v lab)).2) := by
  rw [bfsLoop]
  simp [h]

theorem stepLab_ne {n : Nat} (g : CFG n) (ord : Nat) (v : Fin n)
    (lab : Fin n → Option String) {x : Fin n} (hx : x ≠ v) :
    stepLab g ord v lab x = lab x := by
  unfold stepLab
  cases lab v with
  | none => rfl
  | some s =>
      by_cases hs : g.settable v
      · simp [hs, Function.update_noteq hx]
      · simp [hs]

theorem stepLab_self {n : Nat} (g : CFG n) (ord : Nat) (v : Fin n)
    (lab : Fin n → Option String) :
    stepLab g ord v lab v = applyOrder g ord v (lab v) := by
  unfold stepLab applyOrder
  cases h : lab v with
  | none => exact h
  | some s =>
      by_cases hs : g.settable v
      · simp [hs]
      · simp [hs, h]

theorem mem_stepEnq {n : Nat} (g : CFG n) (v : Fin n) (vis : Finset (Fin n))
    {u : Fin n} :
    u ∈ stepEnq g v vis ↔ g.validSucc v u ∧ u ∉ insert v vis := by
  unfold stepEnq CFG.validSucc
  cases hs : g.succs v with
  | none => simp
  | some l =>
      simp only [List.mem_filterMap]
      constructor
      · rintro ⟨o, ho, heq⟩
        cases o with
        | none => simp at heq
        | some w =>
            by_cases hw : w ∈ insert v vis
            · simp [hw] at heq
            · simp [hw] at heq
              subst heq
              exact ⟨⟨l, rfl, ho⟩, hw⟩
      · rintro ⟨⟨l', hl', hm⟩, hu⟩
        injection hl' with hll
        subst hll
        exact ⟨some u, hm, by simp [hu]⟩

theorem bfs_trace_not_visited {n : Nat} (g : CFG n) (q : List (Fin n))
    (vis : Finset (Fin n)) (ord : Nat) (lab : Fin n → Option String) :
    ∀ x ∈ (bfsLoop g q vis ord lab).2, x ∉ vis := by
  induction q, vis, ord, lab using bfsLoop.induct g with
  | case1 vis ord lab => simp [bfsLoop_nil]
  | case2 vis ord lab v rest h ih =>
      rw [bfsLoop_cons_mem g rest ord lab h]
      exact ih
  | case3 vis ord lab v rest h ih =>
      rw [bfsLoop_cons_not_mem g rest ord lab h]
      intro x hx
      rcases List.mem_cons.mp hx with rfl | hx'
      · exact h
      · intro hxv
        exact ih x hx' (Finset.mem_insert_of_mem hxv)

theorem bfs_trace_nodup {n : Nat} (g : CFG n) (q : List (Fin n))
    (vis : Finset (Fin n)) (ord : Nat) (lab : Fin n → Option String) :
    (bfsLoop g q vis ord lab).2.Nodup := by
  induction q, vis, ord, lab using bfsLoop.induct g with
  | case1 vis ord lab => simp [bfsLoop_nil]
  | case2 vis ord lab v rest h ih =>
      rw [bfsLoop_cons_mem g rest ord lab h]
      exact ih
  | case3 vis ord lab v rest h ih =>
      rw [bfsLoop_cons_not_mem g rest ord lab h]
      refine List.nodup_cons.mpr ⟨?_, ih⟩
      intro hv
      exact bfs_trace_not_visited g _ _ _ _ v hv (Finset.mem_insert_self v vis)

theorem bfs_queue_covered {n : Nat} (g : CFG n) (q : List (Fin n))
    (vis : Finset (Fin n)) (ord : Nat) (lab : Fin n → Option String) :
    ∀ x ∈ q, x ∈ vis ∨ x ∈ (bfsLoop g q vis ord lab).2 := by
  induction q, vis, ord, lab using bfsLoop.induct g with
  | case1 vis ord lab => simp
  | case2 vis ord lab v rest h ih =>
      rw [bfsLoop_cons_mem g rest ord lab h]
      intro x hx
      rcases List.mem_cons.mp hx with rfl | hx'
      · exact Or.inl h
      · exact ih x hx'
  | case3 vis ord lab v rest h ih =>
      rw [bfsLoop_cons_not_mem g rest ord lab h]
      intro x hx
      rcases List.mem_cons.mp hx with rfl | hx'
      · exact Or.inr (List.mem_cons_self _ _)
      · rcases ih x (List.mem_append_left _ hx') with hv | ht
        · rcases Finset.mem_insert.mp hv with rfl | hv'
          · exact Or.inr (List.mem_cons_self _ _)
          · exact Or.inl hv'
        · exact Or.inr (List.mem_cons_of_mem _ ht)

theorem bfs_trace_sound {n : Nat} (g : CFG n) (e : Fin n) (q : List (Fin n))
    (vis : Finset (Fin n)) (ord : Nat) (lab : Fin n → Option String) :
    (∀ x ∈ q, g.Reaches e x) → ∀ x ∈ (bfsLoop g q vis ord lab).2, g.Reaches e x := by
  induction q, vis, ord, lab using bfsLoop.induct g with
  | case1 vis ord lab => simp [bfsLoop_nil]
  | case2 vis ord lab v rest h ih =>
      rw [bfsLoop_cons_mem g rest ord lab h]
      intro hq
      exact ih fun x hx => hq x (List.mem_cons_of_mem _ hx)
  | case3 vis ord lab v rest h ih =>
      rw [bfsLoop_cons_not_mem g rest ord lab h]
      intro hq x hx
      rcases List.mem_cons.mp hx with rfl | hx'
      · exact hq x (List.mem_cons_self _ _)
      · refine ih ?_ x hx'
        intro y hy
        rcases List.mem_append.mp hy with hy' | hy'
        · exact hq y (List.mem_cons_of_mem _ hy')
        · exact CFG.Reaches.tail (hq v (List.mem_cons_self _ _))
            ((mem_stepEnq g v vis).mp hy').1

theorem bfs_closed {n : Nat} (g : CFG n) (q : List (Fin n))
    (vis : Finset (Fin n)) (ord : Nat) (lab : Fin n → Option String) :
    (∀ a ∈ vis, ∀ u, g.validSucc a u → u ∈ vis ∨ u ∈ q) →
    ∀ a, (a ∈ vis ∨ a ∈ (bfsLoop g q vis ord lab).2) → ∀ u, g.validSucc a u →
      u ∈ vis ∨ u ∈ (bfsLoop g q vis ord lab).2 := by
  induction q, vis, ord, lab using bfsLoop.induct g with
  | case1 vis ord lab =>
      rw [bfsLoop_nil]
      intro pre a ha u hu
      rcases ha with ha | ha
      · rcases pre a ha u hu with h | h
        · exact Or.inl h
        · simp at h
      · simp at ha
  | case2 vis ord lab v rest h ih =>
      rw [bfsLoop_cons_mem g rest ord lab h]
      intro pre
      refine ih ?_
      intro a ha u hu
      rcases pre a ha u hu with h' | h'
      · exact Or.inl h'
      · rcases List.mem_cons.mp h' with rfl | h''
        · exact Or.inl h
        · exact Or.inr h''
  | case3 vis ord lab v rest h ih =>
      rw [bfsLoop_cons_not_mem g rest ord lab h]
      intro pre a ha u hu
      have pre' : ∀ a ∈ insert v vis, ∀ u, g.validSucc a u →
          u ∈ insert v vis ∨ u ∈ rest ++ stepEnq g v vis := by
        intro b hb w hw
        rcases Finset.mem_insert.mp hb with rfl | hb'
        · by_cases hw' : w ∈ insert b vis
          · exact Or.inl hw'
          · exact Or.inr (List.mem_append_right _ ((mem_stepEnq g b vis).mpr ⟨hw, hw'⟩))
        · rcases pre b hb' w hw with h' | h'
          · exact Or.inl (Finset.mem_insert_of_mem h')
          · rcases List.mem_cons.mp h' with rfl | h''
            · exact Or.inl (Finset.mem_insert_self _ _)
            · exact Or.inr (List.mem_append_left _ h'')
      have ha' : a ∈ insert v vis ∨
          a ∈ (bfsLoop g (rest ++ stepEnq g v vis) (insert v vis) (ord + 1)
            (stepLab g ord v lab)).2 := by
        rcases ha with ha | ha
        · exact Or.inl (Finset.mem_insert_of_mem ha)
        · rcases List.mem_cons.mp ha with rfl | ha'
          · exact Or.inl (Finset.mem_insert_self _ _)
          · exact Or.inr ha'
      rcases ih pre' a ha' u hu with h' | h'
      · rcases Finset.mem_insert.mp h' with rfl | h''
        · exact Or.inr (List.mem_cons_self _ _)
        · exact Or.inl h''
      · exact Or.inr (List.mem_cons_of_mem _ h')

theorem bfs_lab_notin {n : Nat} (g : CFG n) (q : List (Fin n))
    (vis : Finset (Fin n)) (ord : Nat) (lab : Fin n → Option String) :
    ∀ x, x ∉ (bfsLoop g q vis ord lab).2 → (bfsLoop g q vis ord lab).1 x = lab x := by
  induction q, vis, ord, lab using bfsLoop.induct g with
  | case1 vis ord lab => simp [bfsLoop_nil]
  | case2 vis ord lab v rest h ih =>
      rw [bfsLoop_cons_mem g rest ord lab h]
      exact ih
  | case3 vis ord lab v rest h ih =>
      rw [bfsLoop_cons_not_mem g rest ord lab h]
      intro x hx
      have hxv : x ≠ v := fun hxe => hx (hxe ▸ List.mem_cons_self _ _)
      have hx' : x ∉ (bfsLoop g (rest ++ stepEnq g v vis) (insert v vis) (ord + 1)
          (stepLab g ord v lab)).2 := fun hm => hx (List.mem_cons_of_mem _ hm)
      calc (bfsLoop g (rest ++ stepEnq g v vis) (insert v vis) (ord + 1)
            (stepLab g ord v lab)).1 x
          = stepLab g ord v lab x := ih x hx'
        _ = lab x := stepLab_ne g ord v lab hxv

theorem bfs_lab_at {n : Nat} (g : CFG n) (q : List (Fin n))
    (vis : Finset (Fin n)) (ord : Nat) (lab : Fin n → Option String) :
    ∀ i (hi : i < (bfsLoop g q vis ord lab).2.length),
      (bfsLoop g q vis ord lab).1 ((bfsLoop g q vis ord lab).2.get ⟨i, hi⟩)
        = applyOrder g (ord + i) ((bfsLoop g q vis ord lab).2.get ⟨i, hi⟩)
            (lab ((bfsLoop g q vis ord lab).2.get ⟨i, hi⟩)) := by
  induction q, vis, ord, lab using bfsLoop.induct g with
  | case1 vis ord lab => simp [bfsLoop_nil]
  | case2 vis ord lab v rest h ih =>
      rw [bfsLoop_cons_mem g rest ord lab h]
      exact ih
  | case3 vis ord lab v rest h ih =>
      rw [bfsLoop_cons_not_mem g rest ord lab h]
      intro i hi
      have hvT : v ∉ (bfsLoop g (rest ++ stepEnq g v vis) (insert v vis) (ord + 1)
          (stepLab g ord v lab)).2 := fun hm =>
        bfs_trace_not_visited g _ _ _ _ v hm (Finset.mem_insert_self v vis)
      cases i with
      | zero =>
          simp only [List.get]
          calc (bfsLoop g (rest ++ stepEnq g v vis) (insert v vis) (ord + 1)
                (stepLab g ord v lab)).1 v
              = stepLab g ord v lab v := bfs_lab_notin g _ _ _ _ v hvT
            _ = applyOrder g ord v (lab v) := stepLab_self g ord v lab
            _ = applyOrder g (ord + 0) v (lab v) := by rw [Nat.add_zero]
      | succ j =>
          simp only [List.length_cons] at hi
          have hj : j < (bfsLoop g (rest ++ stepEnq g v vis) (insert v vis) (ord + 1)
              (stepLab g ord v lab)).2.length := Nat.lt_of_succ_lt_succ hi
          have hget : ((v :: (bfsLoop g (rest ++ stepEnq g v vis) (insert v vis) (ord + 1)
              (stepLab g ord v lab)).2).get ⟨j + 1, hi⟩)
              = (bfsLoop g (rest ++ stepEnq g v vis) (insert v vis) (ord + 1)
                  (stepLab g ord v lab)).2.get ⟨j, hj⟩ := rfl
          rw [hget]
          have hx := ih j hj
          have hxv : (bfsLoop g (rest ++ stepEnq g v vis) (insert v vis) (ord + 1)
              (stepLab g ord v lab)).2.get ⟨j, hj⟩ ≠ v := by
            intro hEq
            have hmem := List.get_mem (bfsLoop g (rest ++ stepEnq g v vis)
              (insert v vis) (ord + 1) (stepLab g ord v lab)).2 j hj
            rw [hEq] at hmem
            exact hvT hmem
          rw [stepLab_ne g ord v lab hxv] at hx
          rw [hx]
          have : ord + 1 + j = ord + (j + 1) := by omega
          rw [this]

theorem bfs_trace_congr {n : Nat} (g g' : CFG n) (hs : g.succs = g'.succs)
    (q : List (Fin n)) (vis : Finset (Fin n)) (ord ord' : Nat)
    (lab lab' : Fin n → Option String) :
    (bfsLoop g q vis ord lab).2 = (bfsLoop g' q vis ord' lab').2 := by
  induction q, vis, ord, lab using bfsLoop.induct g generalizing ord' lab' with
  | case1 vis ord lab => rw [bfsLoop_nil, bfsLoop_nil]
  | case2 vis ord lab v rest h ih =>
      rw [bfsLoop_cons_mem g rest ord lab h, bfsLoop_cons_mem g' rest ord' lab' h]
      exact ih ord' lab'
  | case3 vis ord lab v rest h ih =>
      rw [bfsLoop_cons_not_mem g rest ord lab h,
        bfsLoop_cons_not_mem g' rest ord' lab' h]
      have henq : stepEnq g v vis = stepEnq g' v vis := by
        unfold stepEnq
        rw [hs]
      simp only [List.cons.injEq, true_and]
      rw [← henq]
      exact ih (ord' + 1) (stepLab g' ord' v lab')

theorem annotate_entry_none {n : Nat} (g : CFG n) (h : g.entry = none) :
    annotate_execution_order g = (g.labelOf, []) := by
  unfold annotate_execution_order
  rw [h]

theorem annotate_entry_some {n : Nat} (g : CFG n) {e : Fin n} (h : g.entry = some e) :
    annotate_execution_order g = bfsLoop g [e] ∅ 1 g.labelOf := by
  unfold annotate_execution_order
  rw [h]

theorem annotate_trace_nodup {n : Nat} (g : CFG n) :
    (annotate_execution_order g).2.Nodup := by
  cases h : g.entry with
  | none => rw [annotate_entry_none g h]; exact List.nodup_nil
  | some e => rw [annotate_entry_some g h]; exact bfs_trace_nodup g _ _ _ _

theorem annotate_mem_iff {n : Nat} (g : CFG n) (e : Fin n) (he : g.entry = some e) :
    ∀ v, v ∈ (annotate_execution_order g).2 ↔ g.Reaches e v := by
  rw [annotate_entry_some g he]
  intro v
  constructor
  · intro hv
    refine bfs_trace_sound g e [e] ∅ 1 g.labelOf ?_ v hv
    intro x hx
    rw [List.mem_singleton.mp hx]
    exact CFG.Reaches.refl
  · intro hr
    induction hr with
    | refl =>
        rcases bfs_queue_covered g [e] ∅ 1 g.labelOf e (List.mem_singleton_self e)
          with h | h
        · simp at h
        · exact h
    | tail hr hsucc ih =>
        rcases bfs_closed g [e] ∅ 1 g.labelOf (by simp) _ (Or.inr ih) _ hsucc
          with h | h
        · simp at h
        · exact h

theorem annotate_lab_at {n : Nat} (g : CFG n) (e : Fin n) (he : g.entry = some e) :
    ∀ i (hi : i < (annotate_execution_order g).2.length),
      (annotate_execution_order g).1 ((annotate_execution_order g).2.get ⟨i, hi⟩)
        = applyOrder g (i + 1) ((annotate_execution_order g).2.get ⟨i, hi⟩)
            (g.labelOf ((annotate_execution_order g).2.get ⟨i, hi⟩)) := by
  rw [annotate_entry_some g he]
  intro i hi
  have h := bfs_lab_at g [e] ∅ 1 g.labelOf i hi
  rw [Nat.add_comm 1 i] at h
  exact h

theorem annotate_lab_notin {n : Nat} (g : CFG n) :
    ∀ v, v ∉ (annotate_execution_order g).2 →
      (annotate_execution_order g).1 v = g.labelOf v := by
  cases h : g.entry with
  | none => rw [annotate_entry_none g h]; intro v _; rfl
  | some e => rw [annotate_entry_some g h]; exact bfs_lab_notin g _ _ _ _

theorem annotate_trace_congr {n : Nat} (g g' : CFG n) (hs : g.succs = g'.succs)
    (hent : g.entry = g'.entry) :
    (annotate_execution_order g).2 = (annotate_execution_order g').2 := by
  cases h : g'.entry with
  | none =>
      rw [annotate_entry_none g (hent.trans h), annotate_entry_none g' h]
  | some e =>
      rw [annotate_entry_some g (hent.trans h), annotate_entry_some g' h]
      exact bfs_trace_congr g g' hs [e] ∅ 1 1 g.labelOf g'.labelOf

end cfggenerator

/-! ## Claim theorems -/

/-- Claim C1: for every graph with a non-absent entry node (and label
assignment working on every node, as it does for ordinary node objects),
`annotate_execution_order` is a breadth-first traversal from `entry` with a
FIFO queue and a visited set: every node reachable from `entry` is processed
exactly once (the processed-trace is duplicate-free and its members are
exactly the reachable nodes), order numbers start at 1 and increase by 1 per
node processed in dequeue order (the node dequeued `i`-th gets label
`"{i+1}. {original}"` when its label is a string), and nodes never processed
keep their labels. -/
theorem C1_annotate_bfs_order {n : Nat} (g : CFG n) (e : Fin n)
    (he : g.entry = some e) (hset : ∀ v, g.settable v = true) :
    (cfggenerator.annotate_execution_order g).2.Nodup
    ∧ (∀ v, v ∈ (cfggenerator.annotate_execution_order g).2 ↔ g.Reaches e v)
    ∧ (∀ i (hi : i < (cfggenerator.annotate_execution_order g).2.length) (s : String),
        g.labelOf ((cfggenerator.annotate_execution_order g).2.get ⟨i, hi⟩) = some s →
          (cfggenerator.annotate_execution_order g).1
              ((cfggenerator.annotate_execution_order g).2.get ⟨i, hi⟩)
            = some (toString (i + 1) ++ ". " ++ s))
    ∧ (∀ v, v ∉ (cfggenerator.annotate_execution_order g).2 →
        (cfggenerator.annotate_execution_order g).1 v = g.labelOf v) := by
  refine ⟨cfggenerator.annotate_trace_nodup g, cfggenerator.annotate_mem_iff g e he,
    ?_, cfggenerator.annotate_lab_notin g⟩
  intro i hi s hs
  have h := cfggenerator.annotate_lab_at g e he i hi
  rw [hs] at h
  rw [h]
  unfold applyOrder
  simp [hset]

/-- Witness for C1 at the concrete graph `exG`. -/
theorem C1_annotate_bfs_order_witness :
    exG.entry = some 0 ∧ (∀ v, exG.settable v = true)
      ∧ (cfggenerator.annotate_execution_order exG).2.Nodup :=
  ⟨rfl, by decide, (C1_annotate_bfs_order exG 0 rfl (by decide)).1⟩

/-- Claim C6: `annotate_execution_order` never fails. With the entry attribute
missing or `None` it is a no-op; otherwise the traversal completes on every
graph — including nodes with non-iterable successor collections
(`succs v = none`), non-string labels (`labelOf v = none`) and nodes whose
label cannot be set (`settable v = false`): every reachable node is still
processed exactly once, degenerate nodes merely keep their labels
(`applyOrder` leaves non-string labels and unsettable nodes unchanged), and
unprocessed nodes are untouched. -/
theorem C6_annotate_never_fails {n : Nat} (g : CFG n) :
    (g.entry = none → cfggenerator.annotate_execution_order g = (g.labelOf, []))
    ∧ (∀ e, g.entry = some e →
        (cfggenerator.annotate_execution_order g).2.Nodup
        ∧ (∀ v, v ∈ (cfggenerator.annotate_execution_order g).2 ↔ g.Reaches e v)
        ∧ (∀ i (hi : i < (cfggenerator.annotate_execution_order g).2.length),
            (cfggenerator.annotate_execution_order g).1
                ((cfggenerator.annotate_execution_order g).2.get ⟨i, hi⟩)
              = applyOrder g (i + 1)
                  ((cfggenerator.annotate_execution_order g).2.get ⟨i, hi⟩)
                  (g.labelOf ((cfggenerator.annotate_execution_order g).2.get ⟨i, hi⟩)))
        ∧ (∀ v, v ∉ (cfggenerator.annotate_execution_order g).2 →
            (cfggenerator.annotate_execution_order g).1 v = g.labelOf v)) :=
  ⟨fun h => cfggenerator.annotate_entry_none g h,
   fun e he => ⟨cfggenerator.annotate_trace_nodup g,
     cfggenerator.annotate_mem_iff g e he,
     cfggenerator.annotate_lab_at g e he,
     cfggenerator.annotate_lab_notin g⟩⟩

/-- Witness for C6 at the concrete entry-less graph `exGnone`. -/
theorem C6_annotate_never_fails_witness :
    exGnone.entry = none
      ∧ cfggenerator.annotate_execution_order exGnone = (exGnone.labelOf, []) :=
  ⟨rfl, (C6_annotate_never_fails exGnone).1 rfl⟩

/-- Claim C8: running `annotate_execution_order` twice traverses the graph in
the same breadth-first sequence (the processed-node trace of the second run
equals that of the first — traversal depends only on `entry` and
`successors`, which the first run does not change), so relative order numbers
are unchanged; the only additional effect is that each string label receives
a second order-number coat: the node dequeued `i`-th ends with label
`"{i+1}. {i+1}. {original}"`. -/
theorem C8_annotate_idempotent_order {n : Nat} (g : CFG n) (e : Fin n)
    (he : g.entry = some e) (hset : ∀ v, g.settable v = true) :
    ((cfggenerator.annotate_execution_order
        { g with labelOf := (cfggenerator.annotate_execution_order g).1 }).2
      = (cfggenerator.annotate_execution_order g).2)
    ∧ (∀ i (hi : i < (cfggenerator.annotate_execution_order g).2.length) (s : String),
        g.labelOf ((cfggenerator.annotate_execution_order g).2.get ⟨i, hi⟩) = some s →
          (cfggenerator.annotate_execution_order
              { g with labelOf := (cfggenerator.annotate_execution_order g).1 }).1
            ((cfggenerator.annotate_execution_order g).2.get ⟨i, hi⟩)
            = some (toString (i + 1) ++ ". " ++ (toString (i + 1) ++ ". " ++ s))) := by
  have htr : (cfggenerator.annotate_execution_order
      { g with labelOf := (cfggenerator.annotate_execution_order g).1 }).2
      = (cfggenerator.annotate_execution_order g).2 :=
    cfggenerator.annotate_trace_congr _ g rfl rfl
  refine ⟨htr, ?_⟩
  intro i hi s hs
  have hi2 : i < (cfggenerator.annotate_execution_order
      { g with labelOf := (cfggenerator.annotate_execution_order g).1 }).2.length := by
    rw [htr]; exact hi
  have hget : (cfggenerator.annotate_execution_order
      { g with labelOf := (cfggenerator.annotate_execution_order g).1 }).2.get ⟨i, hi2⟩
      = (cfggenerator.annotate_execution_order g).2.get ⟨i, hi⟩ := by
    revert hi2
    rw [htr]
    intro hi2
    rfl
  have hat := cfggenerator.annotate_lab_at
    { g with labelOf := (cfggenerator.annotate_execution_order g).1 } e he i hi2
  rw [hget] at hat
  have hfirst := cfggenerator.annotate_lab_at g e he i hi
  rw [hs] at hfirst
  rw [hat]
  show applyOrder { g with labelOf := (cfggenerator.annotate_execution_order g).1 }
      (i + 1) ((cfggenerator.annotate_execution_order g).2.get ⟨i, hi⟩)
      ((cfggenerator.annotate_execution_order g).1
        ((cfggenerator.annotate_execution_order g).2.get ⟨i, hi⟩))
    = some (toString (i + 1) ++ ". " ++ (toString (i + 1) ++ ". " ++ s))
  rw [hfirst]
  simp [applyOrder, hset]

/-- Witness for C8 at the concrete graph `exG`. -/
theorem C8_annotate_idempotent_order_witness :
    exG.entry = some 0 ∧ (∀ v, exG.settable v = true)
      ∧ (cfggenerator.annotate_execution_order
          { exG with labelOf := (cfggenerator.annotate_execution_order exG).1 }).2
        = (cfggenerator.annotate_execution_order exG).2 :=
  ⟨rfl, by decide, (C8_annotate_idempotent_order exG 0 rfl (by decide)).1⟩

/-! ## Helper lemmas for the complexity analyzer -/

theorem calc_on_read_error (e : PyErr)
    (ccVisit : String → Except PyErr (List CCBlock)) (sd : ScoreData) :
    ∃ msg : String,
      cfggenerator.calculate_cyclomatic_complexity (.error e) ccVisit sd
        = .ok ([msg], 0) := by
  cases e <;> exact ⟨_, rfl⟩

theorem calc_blank (code : String)
    (ccVisit : String → Except PyErr (List CCBlock)) (sd : ScoreData)
    (hb : isBlankStr code = true) :
    cfggenerator.calculate_cyclomatic_complexity (.ok code) ccVisit sd
      = .ok (["Source file is empty."], 0) := by
  simp [cfggenerator.calculate_cyclomatic_complexity, hb]

theorem calc_visit_error (code : String)
    (ccVisit : String → Except PyErr (List CCBlock)) (sd : ScoreData)
    (ve : PyErr) (hb : isBlankStr code = false) (hv : ccVisit code = .error ve) :
    cfggenerator.calculate_cyclomatic_complexity (.ok code) ccVisit sd
      = .ok (["Error parsing code for complexity: " ++ pyErrStr ve], 0) := by
  simp [cfggenerator.calculate_cyclomatic_complexity, hb, hv]

theorem calc_on_ok_total (code : String)
    (ccVisit : String → Except PyErr (List CCBlock)) (sd : ScoreData) :
    ∃ r : List String × Int,
      cfggenerator.calculate_cyclomatic_complexity (.ok code) ccVisit sd = .ok r := by
  by_cases hb : isBlankStr code = true
  · exact ⟨(["Source file is empty."], 0), calc_blank code ccVisit sd hb⟩
  · have hb' : isBlankStr code = false := by simpa using hb
    cases hv : ccVisit code with
    | error ve =>
        exact ⟨(["Error parsing code for complexity: " ++ pyErrStr ve], 0),
          calc_visit_error code ccVisit sd ve hb' hv⟩
    | ok blocks =>
        cases blocks with
        | nil =>
            exact ⟨(["No functions or methods found for complexity analysis."], 0),
              by simp [cfggenerator.calculate_cyclomatic_complexity, hb', hv]⟩
        | cons b bs =>
            exact ⟨cfggenerator.calcBlocks sd (b :: bs),
              by simp [cfggenerator.calculate_cyclomatic_complexity, hb', hv]⟩

/-! ## Remaining claim theorems -/

/-- Claim C2: rank lookup is a total function over (non-negative) integer
complexity scores, scanning the fixed table of inclusive upper bounds in
ascending order with first match winning; in particular 5↦A, 6↦B, 10↦B, 11↦C,
20↦C, 21↦D, 30↦D, 31↦E, 40↦E, 41↦F, 1000↦F. The table constant is modelled
from the spec (it lives in the external radon library); the scan itself is the
loop embedded from `calculate_cyclomatic_complexity`. -/
theorem C2_rank_lookup_table :
    (∀ c : Int, rankOf c (.table specScoreTable)
        = if c ≤ 5 then "A" else if c ≤ 10 then "B" else if c ≤ 20 then "C"
          else if c ≤ 30 then "D" else if c ≤ 40 then "E" else "F")
    ∧ rankOf 5 (.table specScoreTable) = "A"
    ∧ rankOf 6 (.table specScoreTable) = "B"
    ∧ rankOf 10 (.table specScoreTable) = "B"
    ∧ rankOf 11 (.table specScoreTable) = "C"
    ∧ rankOf 20 (.table specScoreTable) = "C"
    ∧ rankOf 21 (.table specScoreTable) = "D"
    ∧ rankOf 30 (.table specScoreTable) = "D"
    ∧ rankOf 31 (.table specScoreTable) = "E"
    ∧ rankOf 40 (.table specScoreTable) = "E"
    ∧ rankOf 41 (.table specScoreTable) = "F"
    ∧ rankOf 1000 (.table specScoreTable) = "F" := by
  refine ⟨?_, rfl, rfl, rfl, rfl, rfl, rfl, rfl, rfl, rfl, rfl, rfl⟩
  intro c
  simp [rankOf, specScoreTable, rankScan, slimitLe]

/-- Claim C10: the rank-lookup branch never raises and silently defaults the
rank to `"A"` whenever the fetched `radon.complexity.SCORE` is absent or not a
list/tuple (`ScoreData.notList`), or contains only unusable entries
(items that are not pairs, or whose limit is not numeric). -/
theorem C10_rank_default_A :
    (∀ c : Int, rankOf c .notList = "A")
    ∧ (∀ (c : Int) (es : List ScoreEntry), (∀ e ∈ es, e.usable = false) →
        rankOf c (.table es) = "A") := by
  refine ⟨fun c => rfl, ?_⟩
  intro c es h
  induction es with
  | nil => rfl
  | cons e rest ih =>
      cases e with
      | malformed =>
          show rankScan c (.malformed :: rest) = "A"
          rw [rankScan]
          exact ih fun x hx => h x (List.mem_cons_of_mem _ hx)
      | entry lim r =>
          cases lim with
          | none =>
              show rankScan c (.entry none r :: rest) = "A"
              rw [rankScan]
              exact ih fun x hx => h x (List.mem_cons_of_mem _ hx)
          | some l =>
              have hu := h _ (List.mem_cons_self _ _)
              simp [ScoreEntry.usable] at hu

/-- Witness for C10 on a concrete unusable table. -/
theorem C10_rank_default_A_witness :
    (∀ e ∈ [ScoreEntry.malformed, ScoreEntry.entry none "Z"], e.usable = false)
      ∧ rankOf 7 (.table [ScoreEntry.malformed, ScoreEntry.entry none "Z"]) = "A" :=
  ⟨by decide, C10_rank_default_A.2 7 _ (by decide)⟩

/-- Claim C9: `calculate_cyclomatic_complexity` is total at its interface: for
every read outcome (including raised exceptions), every `cc_visit` outcome and
every score-table value, it returns a `(list of strings, int)` pair, never an
exception; on every failure path (read error, blank source, parse error) the
returned total is 0. -/
theorem C9_calc_never_raises :
    (∀ (readRes : Except PyErr String)
        (ccVisit : String → Except PyErr (List CCBlock)) (sd : ScoreData),
        ∃ r : List String × Int,
          cfggenerator.calculate_cyclomatic_complexity readRes ccVisit sd = .ok r)
    ∧ (∀ (e : PyErr) (ccVisit : String → Except PyErr (List CCBlock)) (sd : ScoreData),
        ∃ msg : String,
          cfggenerator.calculate_cyclomatic_complexity (.error e) ccVisit sd
            = .ok ([msg], 0))
    ∧ (∀ (code : String) (ccVisit : String → Except PyErr (List CCBlock))
        (sd : ScoreData), isBlankStr code = true →
        cfggenerator.calculate_cyclomatic_complexity (.ok code) ccVisit sd
          = .ok (["Source file is empty."], 0))
    ∧ (∀ (code : String) (ccVisit : String → Except PyErr (List CCBlock))
        (sd : ScoreData) (ve : PyErr),
        isBlankStr code = false → ccVisit code = .error ve →
        cfggenerator.calculate_cyclomatic_complexity (.ok code) ccVisit sd
          = .ok (["Error parsing code for complexity: " ++ pyErrStr ve], 0)) := by
  refine ⟨?_, calc_on_read_error, calc_blank, ?_⟩
  · intro readRes ccVisit sd
    cases readRes with
    | error e =>
        obtain ⟨msg, hm⟩ := calc_on_read_error e ccVisit sd
        exact ⟨([msg], 0), hm⟩
    | ok code => exact calc_on_ok_total code ccVisit sd
  · intro code ccVisit sd ve hb hv
    exact calc_visit_error code ccVisit sd ve hb hv

/-- Witness for C9 at a concrete blank source. -/
theorem C9_calc_never_raises_witness :
    isBlankStr "" = true
    ∧ cfggenerator.calculate_cyclomatic_complexity (.ok "")
        (fun _ => .ok []) .notList = .ok (["Source file is empty."], 0) :=
  ⟨by decide, C9_calc_never_raises.2.2.1 "" _ .notList (by decide)⟩

/-- Claim C3, counterexample: on a source with an unbalanced parenthesis the
Complexity Analyzer does NOT fail — the inner handler around `cc_visit`
catches the `SyntaxError` and the function returns a normal
`(messages, 0)` pair, so no `SyntaxErrorKind` error reaches the caller. -/
theorem C3_counterexample :
    isRaised (cfggenerator.calculate_cyclomatic_complexity (.ok "def f(:")
        (fun _ => .error (.synError (some 1) "unmatched ')'")) .notList) = false
    ∧ cfggenerator.calculate_cyclomatic_complexity (.ok "def f(:")
        (fun _ => .error (.synError (some 1) "unmatched ')'")) .notList
      = .ok (["Error parsing code for complexity: unmatched ')'"], 0) :=
  ⟨rfl, rfl⟩

/-- Claim C3 as amended: on unparsable source the Graph Builder step
(`generate_cfg_image`) does fail with a `SyntaxError` that carries the
original line number, while the Complexity Analyzer swallows the parse error
and returns the degenerate `([error message], 0)` result instead of
raising. -/
theorem C3_amended_syntax_failure :
    (∀ (ln : Option Nat) (m : String) (reread : Except PyErr Bool)
        (visual : Except PyErr Unit) (path : String),
        cfggenerator.generate_cfg_image (.error (.synError ln m)) reread visual path
          = .error (.synError ln ("Syntax error in uploaded file: " ++ m)))
    ∧ (∀ (code : String) (ccVisit : String → Except PyErr (List CCBlock))
        (sd : ScoreData) (ln : Option Nat) (m : String),
        isBlankStr code = false → ccVisit code = .error (.synError ln m) →
        cfggenerator.calculate_cyclomatic_complexity (.ok code) ccVisit sd
          = .ok (["Error parsing code for complexity: " ++ m], 0)) := by
  constructor
  · intro ln m reread visual path
    rfl
  · intro code ccVisit sd ln m hb hv
    exact calc_visit_error code ccVisit sd (.synError ln m) hb hv

/-- Witness for the amended C3 at a concrete unparsable source. -/
theorem C3_amended_syntax_failure_witness :
    isBlankStr "def f(:" = false
    ∧ (fun _ : String =>
        (.error (.synError (some 1) "bad") : Except PyErr (List CCBlock))) "def f(:"
        = .error (.synError (some 1) "bad")
    ∧ cfggenerator.calculate_cyclomatic_complexity (.ok "def f(:")
        (fun _ => .error (.synError (some 1) "bad")) .notList
      = .ok (["Error parsing code for complexity: " ++ "bad"], 0) :=
  ⟨by decide, rfl,
    C3_amended_syntax_failure.2 "def f(:" _ .notList (some 1) "bad" (by decide) rfl⟩

/-- Claim C4, counterexample: for an empty source file whose built graph has
an absent entry, `generate_cfg_image` raises
`RuntimeError("Input file is empty.")` — an error IS thrown in the pipeline
for this input. -/
theorem C4_counterexample :
    cfggenerator.generate_cfg_image (.ok ⟨true, false⟩) (.ok true) (.ok ()) "cfg.png"
      = .error (.runtimeError "Input file is empty.")
    ∧ isRaised (cfggenerator.generate_cfg_image (.ok ⟨true, false⟩) (.ok true)
        (.ok ()) "cfg.png") = true :=
  ⟨rfl, rfl⟩

/-- Claim C4 as amended: empty/whitespace-only source yields the degenerate
non-fatal `(["Source file is empty."], 0)` result from the Complexity
Analyzer, but on the graph side, whenever the built graph is falsy or lacks an
entry node and the re-read confirms the file is empty, `generate_cfg_image`
raises `RuntimeError("Input file is empty.")` instead of proceeding without
error. -/
theorem C4_amended_empty_source :
    (∀ (code : String) (ccVisit : String → Except PyErr (List CCBlock))
        (sd : ScoreData), isBlankStr code = true →
        cfggenerator.calculate_cyclomatic_complexity (.ok code) ccVisit sd
          = .ok (["Source file is empty."], 0))
    ∧ (∀ (c : Py2CfgObj) (visual : Except PyErr Unit) (path : String),
        (!c.truthy || !c.hasEntry) = true →
        cfggenerator.generate_cfg_image (.ok c) (.ok true) visual path
          = .error (.runtimeError "Input file is empty.")) := by
  refine ⟨calc_blank, ?_⟩
  intro c visual path hc
  simp [cfggenerator.generate_cfg_image, hc]

/-- Witness for the amended C4 at a concrete whitespace-only source. -/
theorem C4_amended_empty_source_witness :
    isBlankStr "  \n " = true
    ∧ cfggenerator.calculate_cyclomatic_complexity (.ok "  \n ")
        (fun _ => .ok []) .notList = .ok (["Source file is empty."], 0) :=
  ⟨by decide, C4_amended_empty_source.1 "  \n " _ .notList (by decide)⟩

/-- Claim C5, counterexample: in the CloudCFGMAKER.py revision of
`generate_cfg_web` (cited by the claim), a failure after the temporary output
directory is created does NOT remove the directory — the error is re-raised
as a `RuntimeError` while the directory persists. -/
theorem C5_counterexample :
    (CloudCFGMAKER.generate_cfg_web "input.py" (.error (.runtimeError "boom"))
        (.ok ()) "cfg.png").1
      = .error (.runtimeError "Failed to generate CFG: boom")
    ∧ (CloudCFGMAKER.generate_cfg_web "input.py" (.error (.runtimeError "boom"))
        (.ok ()) "cfg.png").2 = true :=
  ⟨rfl, rfl⟩

/-- Claim C5 as amended: in `cfg_generator.generate_cfg_web` (the orchestrator
`app.py` uses), every failure leaves no output directory behind — either the
error is raised before the directory is created, or the `except` handler
removes it before re-raising; the CloudCFGMAKER.py revision, by contrast,
always leaves its output directory in place once created, even on failure. -/
theorem C5_amended_cleanup :
    (∀ (path : String) (ex : Bool) (env : GenEnv) (fn : String) (e : PyErr),
        (cfg_generator.generate_cfg_web path ex env fn).1 = .error e →
        (cfg_generator.generate_cfg_web path ex env fn).2 = false)
    ∧ (∀ (file : String) (buildRes : Except PyErr Bool)
        (visual : Except PyErr Unit) (fn : String),
        strEndsWith file ".py" = true →
        (CloudCFGMAKER.generate_cfg_web file buildRes visual fn).2 = true) := by
  constructor
  · intro path ex env fn e h
    unfold cfg_generator.generate_cfg_web at h ⊢
    by_cases hex : (!ex) = true
    · simp [hex]
    · simp only [hex, Bool.false_eq_true, if_false] at h ⊢
      by_cases hpy : (!(strEndsWith path ".py")) = true
      · simp [hpy]
      · simp only [hpy, Bool.false_eq_true, if_false] at h ⊢
        cases hcore : cfg_generator._generate_and_visualize_cfg env with
        | ok u => rw [hcore] at h; simp at h
        | error e' => rfl
  · intro file buildRes visual fn hf
    unfold CloudCFGMAKER.generate_cfg_web
    rw [hf]
    cases buildRes with
    | error e => rfl
    | ok b =>
        cases b with
        | false => rfl
        | true => cases visual with
          | error e => rfl
          | ok u => rfl

/-- Witness for the amended C5: a failing call of the cfg_generator
orchestrator leaves no output directory. -/
theorem C5_amended_cleanup_witness :
    (cfg_generator.generate_cfg_web "a.py" false
        ⟨.ok (), true, .ok true, .ok (), true⟩ "cfg.png").1
      = .error (.fileNotFound "Input file not found at: a.py")
    ∧ (cfg_generator.generate_cfg_web "a.py" false
        ⟨.ok (), true, .ok true, .ok (), true⟩ "cfg.png").2 = false :=
  ⟨rfl, C5_amended_cleanup.1 "a.py" false ⟨.ok (), true, .ok true, .ok (), true⟩
    "cfg.png" (.fileNotFound "Input file not found at: a.py") rfl⟩

/-- Claim C7, counterexample: in the CloudCFGMAKER.py revision of
`generate_cfg_web` (cited by the claim) there is no existence check: a
nonexistent `.py` path reaches the build step, whose `FileNotFoundError` is
wrapped into a `RuntimeError` — not a `NotFoundErrorKind` error — and only
after the output directory was created. -/
theorem C7_counterexample :
    (CloudCFGMAKER.generate_cfg_web "missing.py"
        (.error (.fileNotFound "No such file or directory: missing.py"))
        (.ok ()) "cfg.png").1
      = .error (.runtimeError
          "Failed to generate CFG: No such file or directory: missing.py")
    ∧ (CloudCFGMAKER.generate_cfg_web "missing.py"
        (.error (.fileNotFound "No such file or directory: missing.py"))
        (.ok ()) "cfg.png").2 = true :=
  ⟨rfl, rfl⟩

/-- Claim C7 as amended: `cfg_generator.generate_cfg_web` (the orchestrator
`app.py` uses) fails with `FileNotFoundError` for a nonexistent path and with
`ValueError` for an existing non-`.py` path, in both cases before any
analysis runs or any output directory is created (the result is independent
of every downstream outcome and the directory-persists flag is `false`); the
CloudCFGMAKER.py revision performs only the extension check in that way. -/
theorem C7_amended_validation :
    (∀ (path : String) (env : GenEnv) (fn : String),
        cfg_generator.generate_cfg_web path false env fn
          = (.error (.fileNotFound ("Input file not found at: " ++ path)), false))
    ∧ (∀ (path : String) (env : GenEnv) (fn : String),
        strEndsWith path ".py" = false →
        cfg_generator.generate_cfg_web path true env fn
          = (.error (.valueError "Input must be a Python file (.py)."), false))
    ∧ (∀ (file : String) (buildRes : Except PyErr Bool)
        (visual : Except PyErr Unit) (fn : String),
        strEndsWith file ".py" = false →
        CloudCFGMAKER.generate_cfg_web file buildRes visual fn
          = (.error (.valueError "Input must be a Python file (.py)."), false)) := by
  refine ⟨fun path env fn => rfl, ?_, ?_⟩
  · intro path env fn h
    unfold cfg_generator.generate_cfg_web
    rw [h]
    rfl
  · intro file buildRes visual fn h
    unfold CloudCFGMAKER.generate_cfg_web
    rw [h]
    rfl

/-- Witness for the amended C7 at a concrete non-Python path. -/
theorem C7_amended_validation_witness :
    strEndsWith "notes.txt" ".py" = false
    ∧ cfg_generator.generate_cfg_web "notes.txt" true
        ⟨.ok (), true, .ok true, .ok (), true⟩ "cfg.png"
      = (.error (.valueError "Input must be a Python file (.py)."), false) :=
  ⟨by decide, C7_amended_validation.2.1 "notes.txt"
    ⟨.ok (), true, .ok true, .ok (), true⟩ "cfg.png" (by decide)⟩
